import Mathlib

/-!
# Connect-with-data (TCP Fast Open) native entry points

Shallow embedding of

* `Java_sun_nio_ch_NetMd_connectx0`
  (`src/java.base/unix/native/libnio/ch/NetMd.c`), whose body is selected by
  the preprocessor among a Linux `sendto(MSG_FASTOPEN)` branch, an Apple
  `connectx` branch and a fall-through branch, and
* `Java_sun_nio_ch_ConnectxImpl_startConnect0`
  (`src/java.base/windows/native/libnio/ch/ConnectxImpl.c`), the Windows
  `ConnectEx` / `GetOverlappedResult` path.

The process state the functions touch (pending Java exception, `errno`, the
Windows last-error value, the global debug stream `file`, the contents of
`/tmp/foo.txt`, the caller's `OVERLAPPED`) is an explicit `World`; every call
into the operating system or the C library is appended to `World.calls`, and
its answer is read from an `OS` record of responses.

Conventions.

* Machine integers are `Int`; every C conversion is an explicit `toInt32`,
  `toDWORD` or `toSizeT`.
* Pointers handed in by the caller (`bufAddress`, `ol`) are valid.
* `fopen` may fail and then returns `NULL`; `fprintf` on a `NULL` stream is
  undefined behaviour (the process faults), and a run that reaches it yields
  no result (`none`).
* The debug stream is fully buffered: output is kept in the stream buffer and
  transmitted to `/tmp/foo.txt` as a block when the buffer is filled, or by
  `fflush`; a stdio call stores to `errno` only when such a transmission
  fails. A system call stores to `errno` (or the last-error value) exactly
  when it fails.
* `IOS_THROWN`, `fdval`, `handleSocketError` and `NET_InetAddressToSockaddr`
  are not defined in the two files and are parameters (`Externals`).
-/

namespace FastOpen

/-! ## Machine integers -/

/-- Conversion of an integer value to a 32-bit signed C `int` (also `jint`):
the value is reduced modulo `2^32` into `[-2^31, 2^31)`. -/
def toInt32 (x : Int) : Int := (x + 2147483648) % 4294967296 - 2147483648

/-- Conversion of an integer value to a `DWORD` (32-bit unsigned). -/
def toDWORD (x : Int) : Int := x % 4294967296

/-- Conversion of an integer value to a `size_t` (64-bit unsigned). -/
def toSizeT (x : Int) : Int := x % 18446744073709551616

/-! ## Java side -/

/-- A Java object reference handed to the native method. -/
abbrev Jobject := Nat

/-- The exceptions the two source files can leave pending. -/
inductive Throwable where
  /-- Raised by `JNU_ThrowIOException(env, msg)`. -/
  | IOException (msg : String)
  /-- Raised by `JNU_ThrowIOExceptionWithLastError(env, defaultDetail)`: an
  `IOException` built from the last error value at the time of the call. -/
  | IOExceptionWithLastError (lastError : Int) (defaultDetail : String)
  /-- Raised by `JNU_ThrowInternalError(env, msg)`. -/
  | InternalError (msg : String)
  /-- A failure carrying a platform error code (raised by helpers outside
  the two files). -/
  | Errno (code : Int)
  deriving DecidableEq, Repr

/-- The part of the JNI environment the functions act on: the pending
exception, if any. -/
structure JNIEnv where
  pending : Option Throwable
  deriving DecidableEq, Repr

/-- `JNU_ThrowIOException(env, msg)`. -/
def JNU_ThrowIOException (_env : JNIEnv) (msg : String) : JNIEnv :=
  { pending := some (Throwable.IOException msg) }

/-- `JNU_ThrowIOExceptionWithLastError(env, defaultDetail)`, reading the
last-error value current at the call. -/
def JNU_ThrowIOExceptionWithLastError (_env : JNIEnv) (lastError : Int)
    (defaultDetail : String) : JNIEnv :=
  { pending := some (Throwable.IOExceptionWithLastError lastError defaultDetail) }

/-- `JNU_ThrowInternalError(env, msg)`. -/
def JNU_ThrowInternalError (_env : JNIEnv) (msg : String) : JNIEnv :=
  { pending := some (Throwable.InternalError msg) }

/-! ## Socket addresses -/

/-- A `SOCKETADDRESS` as raw bytes. -/
abbrev SOCKETADDRESS := List Nat

/-- What `NET_InetAddressToSockaddr(env, iao, port, &sa, &sa_len, preferIPv6)`
leaves behind: its return code, the JNI environment after it, and the
`sa` / `sa_len` out-parameters. -/
structure AddrResult where
  rc : Int
  env : JNIEnv
  sa : SOCKETADDRESS
  sa_len : Int
  deriving DecidableEq, Repr

/-- Parts the two files use but do not define: the constant `IOS_THROWN`
(`nio.h`), `fdval` and `handleSocketError` (`nio_util.h`) and
`NET_InetAddressToSockaddr` (`net_util.h`). -/
structure Externals where
  IOS_THROWN : Int
  fdval : JNIEnv → Jobject → Int
  NET_InetAddressToSockaddr : JNIEnv → Jobject → Int → Bool → AddrResult
  handleSocketError : JNIEnv → Int → Int × JNIEnv

/-! ## System constants -/

/-- The three bodies `NetMd.c` can be compiled to. -/
inductive UnixTarget where
  | linux
  | apple
  | other
  deriving DecidableEq, Repr

/-- `EMSGSIZE` from `<errno.h>` (Linux 90, Darwin 40). -/
def UnixTarget.EMSGSIZE : UnixTarget → Int
  | .apple => 40
  | _ => 90

/-- `EINPROGRESS` from `<errno.h>` (Linux 115, Darwin 36). -/
def UnixTarget.EINPROGRESS : UnixTarget → Int
  | .apple => 36
  | _ => 115

/-- `EINTR` from `<errno.h>`. -/
def EINTR : Int := 4

/-- `MSG_FASTOPEN` from `<sys/socket.h>` (Linux). -/
def MSG_FASTOPEN : Int := 536870912

/-- `CONNECT_DATA_IDEMPOTENT` from `<sys/socket.h>` (Darwin). -/
def CONNECT_DATA_IDEMPOTENT : Int := 2

/-- `ERROR_IO_PENDING` from `<winerror.h>`. -/
def ERROR_IO_PENDING : Int := 997

/-! ## Debug stream -/

/-- One argument of a `fprintf` call. -/
inductive LogArg where
  /-- A `%d` argument. -/
  | d (v : Int)
  /-- A `%s` argument produced by `strerror(code)`. -/
  | strerror (code : Int)
  deriving DecidableEq, Repr

/-- One `fprintf` call: the format string and its arguments. -/
structure LogLine where
  fmt : String
  args : List LogArg
  deriving DecidableEq, Repr

/-- The characters `fprintf` produces for a format and its arguments: `%d`
prints a decimal integer, `%s` the message `strerror` gives for the code, any
other character is copied. The flag tells whether a `%` has just been read. -/
def renderChars (strerror : Int → String) : Bool → List Char → List LogArg → List Char
  | false, [], _ => []
  | true, [], _ => ['%']
  | false, c :: cs, args =>
    if c = '%' then renderChars strerror true cs args
    else c :: renderChars strerror false cs args
  | true, c :: cs, [] => '%' :: c :: renderChars strerror false cs []
  | true, c :: cs, LogArg.d v :: more =>
    if c = 'd' then (toString v).data ++ renderChars strerror false cs more
    else '%' :: c :: renderChars strerror false cs (LogArg.d v :: more)
  | true, c :: cs, LogArg.strerror e :: more =>
    if c = 's' then (strerror e).data ++ renderChars strerror false cs more
    else '%' :: c :: renderChars strerror false cs (LogArg.strerror e :: more)

/-- The characters one `fprintf` call produces. -/
def LogLine.render (strerror : Int → String) (line : LogLine) : List Char :=
  renderChars strerror false line.fmt.data line.args

/-- A fully buffered stdio stream: how it was opened, the size of its buffer
and the characters held in the buffer. -/
structure FILE where
  path : String
  mode : String
  size : Nat
  buf : List Char
  deriving DecidableEq, Repr

/-- Put one character into a buffer of `size` characters: when the buffer is
already full its content becomes a block to transmit and the character starts
the next buffer. The state is the buffer and the blocks to transmit so far. -/
def putChar (size : Nat) (st : List Char × List (List Char)) (c : Char) :
    List Char × List (List Char) :=
  if size ≤ st.1.length then ([c], st.2 ++ [st.1]) else (st.1 ++ [c], st.2)

/-- Put characters into the stream buffer: yields the stream afterwards and
the blocks that have to be transmitted to the file, oldest first. -/
def FILE.put (f : FILE) (cs : List Char) : FILE × List (List Char) :=
  ({ f with buf := (cs.foldl (putChar f.size) (f.buf, [])).1 },
   (cs.foldl (putChar f.size) (f.buf, [])).2)

/-! ## Windows completion token -/

/-- The `OVERLAPPED` structure. -/
structure OVERLAPPED where
  Internal : Int
  InternalHigh : Int
  Offset : Int
  OffsetHigh : Int
  hEvent : Int
  deriving DecidableEq, Repr

/-- An `OVERLAPPED` after `ZeroMemory(p, sizeof(OVERLAPPED))`. -/
def OVERLAPPED.zero : OVERLAPPED :=
  { Internal := 0, InternalHigh := 0, Offset := 0, OffsetHigh := 0, hEvent := 0 }

/-! ## Calls into the operating system and the C library -/

/-- Destination description handed to `connectx`. -/
structure sa_endpoints_t where
  sae_srcif : Int
  sae_srcaddr : Option SOCKETADDRESS
  sae_srcaddrlen : Int
  sae_dstaddr : SOCKETADDRESS
  sae_dstaddrlen : Int
  deriving DecidableEq, Repr

/-- One scatter/gather element. -/
structure iovec where
  iov_base : Int
  iov_len : Int
  deriving DecidableEq, Repr

/-- A call issued by one of the two functions, with its arguments. -/
inductive Call where
  | fopen (path mode : String)
  | fprintf (line : LogLine)
  | fflush
  | sendto (fd buf len flags : Int) (sa : SOCKETADDRESS) (sa_len : Int)
  | connectx (fd : Int) (endpoints : sa_endpoints_t) (associd flags : Int)
      (iov : List iovec) (iovcnt : Int)
  /-- `ConnectEx`; `token` is the content of `*lpOverlapped` when the call is
  issued. -/
  | ConnectEx (s : Int) (sa : SOCKETADDRESS) (sa_len : Int) (buf : Int)
      (len : Int) (lpOverlapped : Int) (token : OVERLAPPED)
  /-- `GetOverlappedResult`; `token` is the content of `*lpOverlapped` when
  the call is issued. -/
  | GetOverlappedResult (s : Int) (lpOverlapped : Int) (token : OVERLAPPED)
      (bWait : Bool)
  deriving DecidableEq, Repr

/-- Is the call a `sendto`? -/
def Call.isSendto : Call → Bool
  | .sendto .. => true
  | _ => false

/-- Number of `sendto` calls in a history. -/
def sendtoCount (cs : List Call) : Nat := (cs.filter Call.isSendto).length

/-- The tokens `ConnectEx` was issued on, oldest first. -/
def connectExTokens : List Call → List OVERLAPPED
  | [] => []
  | .ConnectEx _ _ _ _ _ _ token :: cs => token :: connectExTokens cs
  | _ :: cs => connectExTokens cs

/-! ## Responses of the operating system -/

/-- Answer to `sendto`: the returned `ssize_t` and the value stored in `errno`
when the return is negative. -/
structure SendtoResp where
  ret : Int
  errno : Int
  deriving DecidableEq, Repr

/-- Answer to `connectx`: the returned `int`, the value stored in `errno` when
the return is negative, and the count stored through the `len` out-pointer
(`none` when nothing is stored there). -/
structure ConnectxResp where
  ret : Int
  errno : Int
  nsent : Option Int
  deriving DecidableEq, Repr

/-- Answer to `fopen`: whether the stream is opened, the size of the buffer
the library gives it, and the value stored in `errno` when it is not opened. -/
structure FopenResp where
  opened : Bool
  size : Nat
  errno : Int
  deriving DecidableEq, Repr

/-- Answer to the transmission of buffered output that a stdio call may have
to make: `none` when the write succeeds, the value stored in `errno` when it
fails. -/
structure StdioResp where
  errno : Option Int
  deriving DecidableEq, Repr

/-- Answer to `ConnectEx`: the returned `BOOL`, the count stored through
`lpdwBytesSent` (`none` when nothing is stored), the last-error value set
when the return is `FALSE`, and the content of the `OVERLAPPED` afterwards. -/
structure ConnectExResp where
  ok : Bool
  bytesSent : Option Int
  lastError : Int
  token : OVERLAPPED
  deriving DecidableEq, Repr

/-- Answer to `GetOverlappedResult`: the returned `BOOL`, the count stored
through `lpNumberOfBytesTransferred`, and the last-error value set when the
return is `FALSE`. -/
structure GetOverlappedResultResp where
  ok : Bool
  transferred : Int
  lastError : Int
  deriving DecidableEq, Repr

/-- What the operating system and C library answer during one invocation.
`sendto i` is the answer to the `sendto` call issued after `i` earlier ones;
`strerror` is the message table of the C library; `nsentInit` and `xferInit`
are the indeterminate initial values of the locals `nsent` and `xfer`. -/
structure OS where
  fopen : FopenResp
  strerror : Int → String
  sendto : Nat → SendtoResp
  connectx : ConnectxResp
  nsentInit : Int
  fprintf : StdioResp
  fflush : StdioResp
  ConnectEx : ConnectExResp
  GetOverlappedResult : GetOverlappedResultResp
  xferInit : Int

/-- Process state the functions read and write. -/
structure World where
  /-- The JNI environment (pending exception). -/
  env : JNIEnv
  /-- The thread's `errno`. -/
  errno : Int
  /-- The thread's Windows last-error value. -/
  lastError : Int
  /-- The global `file` stream (`none` is `NULL`). -/
  file : Option FILE
  /-- The content of `/tmp/foo.txt`. -/
  tmpFoo : List Char
  /-- The `OVERLAPPED` the caller's `ol` points to. -/
  overlapped : OVERLAPPED
  /-- Calls issued so far, oldest first. -/
  calls : List Call
  deriving DecidableEq, Repr

/-- The side channel: the global stream handle and the file behind it. -/
def World.logState (w : World) : Option FILE × List Char := (w.file, w.tmpFoo)

/-- What the Java caller observes of a call: the returned `jint` and the
pending exception. -/
def outcome (r : Int × World) : Int × Option Throwable := (r.1, r.2.env.pending)

/-! ## Primitive calls -/

/-- `fopen(path, mode)`: yields a stream with an empty buffer, or `NULL` with
`errno` set when the file cannot be opened. -/
def fopen (os : OS) (w : World) (path mode : String) : Option FILE × World :=
  if os.fopen.opened then
    (some { path := path, mode := mode, size := os.fopen.size, buf := [] },
     { w with calls := w.calls ++ [Call.fopen path mode] })
  else
    (none, { w with errno := os.fopen.errno, calls := w.calls ++ [Call.fopen path mode] })

/-- `fprintf(file, fmt, args...)` on the global stream. On a `NULL` stream the
behaviour is undefined (`none`). Otherwise the characters go into the stream
buffer; when that fills, the filled blocks are written to `/tmp/foo.txt`, and
a failing write stores to `errno`. -/
def fprintf (os : OS) (w : World) (line : LogLine) : Option World :=
  match w.file with
  | none => none
  | some f =>
    if (f.put (line.render os.strerror)).2 = [] then
      some { w with
             file := some (f.put (line.render os.strerror)).1
             calls := w.calls ++ [Call.fprintf line] }
    else
      match os.fprintf.errno with
      | none =>
        some { w with
               file := some (f.put (line.render os.strerror)).1
               tmpFoo := w.tmpFoo ++ (f.put (line.render os.strerror)).2.flatten
               calls := w.calls ++ [Call.fprintf line] }
      | some e => some { w with errno := e, calls := w.calls ++ [Call.fprintf line] }

/-- `fflush(file)`: buffered characters, if any, are written to
`/tmp/foo.txt`; a failing write stores to `errno`. With a `NULL` argument
`fflush` flushes every open output stream, of which the model has none. -/
def fflush (os : OS) (w : World) : World :=
  match w.file with
  | none => { w with calls := w.calls ++ [Call.fflush] }
  | some f =>
    if f.buf = [] then { w with calls := w.calls ++ [Call.fflush] }
    else
      match os.fflush.errno with
      | none =>
        { w with
          tmpFoo := w.tmpFoo ++ f.buf
          file := some { f with buf := [] }
          calls := w.calls ++ [Call.fflush] }
      | some e => { w with errno := e, calls := w.calls ++ [Call.fflush] }

/-- `sendto(fd, buf, len, flags, &sa, sa_len)`. -/
def sendto (os : OS) (w : World) (fd buf len flags : Int) (sa : SOCKETADDRESS)
    (sa_len : Int) : Int × World :=
  let r := os.sendto (sendtoCount w.calls)
  (r.ret,
   { w with
     errno := if r.ret < 0 then r.errno else w.errno
     calls := w.calls ++ [Call.sendto fd buf len flags sa sa_len] })

/-- `connectx(fd, &endpoints, associd, flags, iov, iovcnt, &nsent, NULL)`;
returns the `int` result and the content of `nsent` afterwards. -/
def connectx (os : OS) (w : World) (fd : Int) (endpoints : sa_endpoints_t)
    (associd flags : Int) (iov : List iovec) (iovcnt : Int) (nsent : Int) :
    Int × Int × World :=
  let r := os.connectx
  (r.ret, r.nsent.getD nsent,
   { w with
     errno := if r.ret < 0 then r.errno else w.errno
     calls := w.calls ++ [Call.connectx fd endpoints associd flags iov iovcnt] })

/-- `ZeroMemory(lpOl, sizeof(OVERLAPPED))`. -/
def ZeroMemory (w : World) : World := { w with overlapped := OVERLAPPED.zero }

/-- `(*ConnectEx_func)(s, &sa, sa_len, buf, len, &bytesSent, lpOl)`; returns
the `BOOL` result and the content of `bytesSent` afterwards. -/
def ConnectEx (os : OS) (w : World) (s : Int) (sa : SOCKETADDRESS) (sa_len : Int)
    (buf len : Int) (bytesSent : Int) (lpOl : Int) : Bool × Int × World :=
  let r := os.ConnectEx
  (r.ok, r.bytesSent.getD bytesSent,
   { w with
     lastError := if r.ok then w.lastError else r.lastError
     overlapped := r.token
     calls := w.calls ++ [Call.ConnectEx s sa sa_len buf len lpOl w.overlapped] })

/-- `GetOverlappedResult(s, lpOl, &xfer, bWait)`; returns the `BOOL` result
and the content of `xfer` afterwards. -/
def GetOverlappedResult (os : OS) (w : World) (s : Int) (lpOl : Int) (xfer : Int)
    (bWait : Bool) : Bool × Int × World :=
  let r := os.GetOverlappedResult
  (r.ok, if r.ok then r.transferred else xfer,
   { w with
     lastError := if r.ok then w.lastError else r.lastError
     calls := w.calls ++ [Call.GetOverlappedResult s lpOl w.overlapped bWait] })

/-! ## `NetMd.c` -/

/-- Arguments of the native methods (the union of both signatures; `isBlocking`
is the parameter named `unused` in `NetMd.c`, `ol` exists on Windows only). -/
structure Request where
  preferIPv6 : Bool
  fdo : Jobject
  isBlocking : Bool
  iao : Jobject
  ol : Int
  port : Int
  bufAddress : Int
  len : Int
  deriving DecidableEq, Repr

/-- Lines 63-65 of `NetMd.c`: open the debug stream if it is not open yet
(the result of `fopen` is stored unchecked). -/
def NetMd.openLog (os : OS) (w : World) : World :=
  if w.file.isNone then
    { (fopen os w "/tmp/foo.txt" "a").2 with file := (fopen os w "/tmp/foo.txt" "a").1 }
  else w

/-- The arguments of the debug print on Linux (line 76). -/
def NetMd.linuxLine (n errno : Int) : LogLine :=
  { fmt := "XXX: %d %s \n", args := [LogArg.d (toInt32 n), LogArg.strerror errno] }

/-- The arguments of the debug print on Apple (line 112). -/
def NetMd.appleLine (n errno nsent : Int) : LogLine :=
  { fmt := "XXX: %d %s %d\n",
    args := [LogArg.d n, LogArg.strerror errno, LogArg.d (toInt32 nsent)] }

/-- The platform call and the debug print after it (Linux lines 75-76, Apple
lines 96-113): yields `n`, `nsent` and the world in which the classification
that follows runs, or nothing when the debug print is undefined. -/
def NetMd.issue (X : Externals) (t : UnixTarget) (os : OS) (w : World)
    (req : Request) (a : AddrResult) : Option (Int × Int × World) :=
  let buf := req.bufAddress
  match t with
  | .linux =>
    let r := sendto os w (X.fdval w.env req.fdo) buf (toSizeT req.len)
      MSG_FASTOPEN a.sa a.sa_len
    let n := toInt32 r.1
    (fprintf os r.2 (NetMd.linuxLine n r.2.errno)).map (fun w2 => (n, os.nsentInit, w2))
  | .apple =>
    let endpoints : sa_endpoints_t :=
      { sae_srcif := 0, sae_srcaddr := none, sae_srcaddrlen := 0,
        sae_dstaddr := a.sa, sae_dstaddrlen := a.sa_len }
    let iov : iovec := { iov_base := buf, iov_len := toSizeT req.len }
    let r := connectx os w (X.fdval w.env req.fdo) endpoints 0
      CONNECT_DATA_IDEMPOTENT [iov] 1 os.nsentInit
    (fprintf os r.2.2 (NetMd.appleLine r.1 r.2.2.errno r.2.1)).map
      (fun w2 => (r.1, r.2.1, fflush os w2))
  | .other => some (0, os.nsentInit, w)

/-- The classification of the platform call's result (Linux lines 77-92,
Apple lines 114-129, fall-through lines 131-132). -/
def NetMd.classify (X : Externals) (t : UnixTarget) (n nsent : Int) (w : World) :
    Int × World :=
  match t with
  | .linux =>
    if n < 0 then
      if w.errno = t.EMSGSIZE then
        (X.IOS_THROWN, { w with env := JNU_ThrowIOException w.env "TFO data too large" })
      else if w.errno = t.EINPROGRESS then
        (0, w)
      else
        let r := X.handleSocketError w.env w.errno
        (r.1, { w with env := r.2 })
    else (toInt32 n, w)
  | .apple =>
    if n < 0 then
      if w.errno = t.EMSGSIZE then
        (X.IOS_THROWN, { w with env := JNU_ThrowIOException w.env "TFO data too large" })
      else if w.errno = t.EINPROGRESS then
        (toInt32 nsent, w)
      else
        let r := X.handleSocketError w.env w.errno
        (r.1, { w with env := r.2 })
    else (toInt32 nsent, w)
  | .other =>
    (X.IOS_THROWN, { w with env := JNU_ThrowInternalError w.env "should not reach here" })

/-- Lines 59-67 of `NetMd.c`, common to all targets: the debug stream is
opened if needed and the destination address is built; yields the address
result and the world after both. -/
def NetMd.prologue (X : Externals) (os : OS) (w : World) (req : Request) :
    AddrResult × World :=
  let w0 := NetMd.openLog os w
  let a := X.NET_InetAddressToSockaddr w0.env req.iao req.port req.preferIPv6
  (a, { w0 with env := a.env })

/-- `Java_sun_nio_ch_NetMd_connectx0` compiled for target `t`; `none` when the
run reaches undefined behaviour. -/
def Java_sun_nio_ch_NetMd_connectx0 (X : Externals) (t : UnixTarget) (os : OS)
    (w : World) (req : Request) : Option (Int × World) :=
  let p := NetMd.prologue X os w req
  if p.1.rc ≠ 0 then some (X.IOS_THROWN, p.2)
  else
    (NetMd.issue X t os p.2 req p.1).map (fun s => NetMd.classify X t s.1 s.2.1 s.2.2)

/-! ## `ConnectxImpl.c` -/

/-- `Java_sun_nio_ch_ConnectxImpl_startConnect0`. -/
def Java_sun_nio_ch_ConnectxImpl_startConnect0 (X : Externals) (os : OS)
    (w : World) (req : Request) : Int × World :=
  let s := X.fdval w.env req.fdo
  let lpOl := req.ol
  let bytesSent0 : Int := 0
  let a := X.NET_InetAddressToSockaddr w.env req.iao req.port req.preferIPv6
  let w1 := { w with env := a.env }
  if a.rc ≠ 0 then (X.IOS_THROWN, w1)
  else
    let w2 := ZeroMemory w1
    let (res, bytesSent, w3) := ConnectEx os w2 s a.sa a.sa_len req.bufAddress
      (toDWORD req.len) bytesSent0 lpOl
    if !res then
      let error := toInt32 w3.lastError
      if error = ERROR_IO_PENDING then
        let (res2, xfer, w4) := GetOverlappedResult os w3 s lpOl os.xferInit req.isBlocking
        if res2 then (toInt32 xfer, w4)
        else
          (X.IOS_THROWN,
           { w4 with env := JNU_ThrowIOExceptionWithLastError w4.env w4.lastError
                              "ConnectEx failed" })
      else
        (X.IOS_THROWN,
         { w3 with env := JNU_ThrowIOExceptionWithLastError w3.env w3.lastError
                            "ConnectEx failed" })
    else (toInt32 bytesSent, w3)

/-! ## Strategy selection -/

/-- The three connect-with-data strategies: A is Linux `sendto`, B is Apple
`connectx`, C is Windows `ConnectEx`. -/
inductive Strategy where
  | A
  | B
  | C
  deriving DecidableEq, Repr

/-- The native entry point the build selects for a strategy; `none` when the
run reaches undefined behaviour. -/
def attempt (X : Externals) (s : Strategy) (os : OS) (w : World) (req : Request) :
    Option (Int × World) :=
  match s with
  | .A => Java_sun_nio_ch_NetMd_connectx0 X .linux os w req
  | .B => Java_sun_nio_ch_NetMd_connectx0 X .apple os w req
  | .C => some (Java_sun_nio_ch_ConnectxImpl_startConnect0 X os w req)

/-! ## A concrete instance of the externals -/

/-- Modelled from the spec: `handleSocketError` is declared in `nio_util.h`
and defined outside the two files; the spec has every other OS-reported
failure surface as `Failed(Errno(code))` carrying the platform error code. -/
def handleSocketErrorSpec (IOS_THROWN : Int) (_env : JNIEnv) (errorValue : Int) :
    Int × JNIEnv :=
  (IOS_THROWN, { pending := some (Throwable.Errno errorValue) })

/-- Externals used to evaluate the functions on examples: `IOS_THROWN` is
`-5`, `fdval` reads the descriptor out of the reference, address construction
fails on a null address object and succeeds otherwise. -/
def refExternals : Externals where
  IOS_THROWN := -5
  fdval := fun _ fdo => fdo
  NET_InetAddressToSockaddr := fun env iao port _ =>
    if iao = 0 then
      { rc := -1, env := { pending := some (Throwable.Errno 0) }, sa := [], sa_len := 0 }
    else
      { rc := 0, env := env, sa := [2, port.toNat / 256, port.toNat % 256], sa_len := 16 }
  handleSocketError := handleSocketErrorSpec (-5)

/-- Messages of the Linux C library for the error codes used below. -/
def linuxStrerror (code : Int) : String :=
  if code = 0 then "Success"
  else if code = 4 then "Interrupted system call"
  else if code = 13 then "Permission denied"
  else if code = 28 then "No space left on device"
  else if code = 90 then "Message too long"
  else if code = 111 then "Connection refused"
  else if code = 115 then "Operation now in progress"
  else "Unknown error"

/-- Messages of the Darwin C library for the error codes used below. -/
def darwinStrerror (code : Int) : String :=
  if code = 0 then "Undefined error: 0"
  else if code = 4 then "Interrupted system call"
  else if code = 13 then "Permission denied"
  else if code = 28 then "No space left on device"
  else if code = 36 then "Operation now in progress"
  else if code = 40 then "Message too long"
  else if code = 61 then "Connection refused"
  else "Unknown error"

/-- An operating system that answers every call with success and no data; the
debug stream gets a buffer of 4096 characters. -/
def quietOS : OS where
  fopen := { opened := true, size := 4096, errno := 0 }
  strerror := linuxStrerror
  sendto := fun _ => { ret := 0, errno := 0 }
  connectx := { ret := 0, errno := 0, nsent := some 0 }
  nsentInit := 0
  fprintf := { errno := none }
  fflush := { errno := none }
  ConnectEx := { ok := true, bytesSent := some 0, lastError := 0, token := OVERLAPPED.zero }
  GetOverlappedResult := { ok := true, transferred := 0, lastError := 0 }
  xferInit := 0

/-- A fresh process: nothing pending, debug stream not opened, empty log. -/
def freshWorld : World where
  env := { pending := none }
  errno := 0
  lastError := 0
  file := none
  tmpFoo := []
  overlapped := OVERLAPPED.zero
  calls := []

/-- A request to send `len` bytes to port 443 on descriptor 7. -/
def request (len : Int) : Request where
  preferIPv6 := false
  fdo := 7
  isBlocking := true
  iao := 1
  ol := 4096
  port := 443
  bufAddress := 8192
  len := len

/-! ## Properties -/

/-- The primary connect-with-data call reports immediate success with count
`k`: `sendto` returns `k` (A), `connectx` returns `>= 0` and stores `k` in
`nsent` (B), `ConnectEx` returns `TRUE` and stores `k` in `bytesSent` (C). -/
def ImmediateSuccess (s : Strategy) (os : OS) (w : World) (k : Int) : Prop :=
  match s with
  | .A => (os.sendto (sendtoCount w.calls)).ret = k
  | .B => 0 ≤ os.connectx.ret ∧ os.connectx.nsent = some k
  | .C => os.ConnectEx.ok = true ∧ os.ConnectEx.bytesSent = some k

instance ImmediateSuccess.decidable (s : Strategy) (os : OS) (w : World) (k : Int) :
    Decidable (ImmediateSuccess s os w k) :=
  match s with
  | .A => inferInstanceAs (Decidable ((os.sendto (sendtoCount w.calls)).ret = k))
  | .B => inferInstanceAs (Decidable (0 ≤ os.connectx.ret ∧ os.connectx.nsent = some k))
  | .C => inferInstanceAs
      (Decidable (os.ConnectEx.ok = true ∧ os.ConnectEx.bytesSent = some k))

/-- The value of `errno` that the classification in `NetMd.c` reads (line 78
on Linux, line 115 on Apple): the one left by the platform call and the debug
print that follows it; `none` when the run does not get there. -/
def NetMd.errnoRead (X : Externals) (t : UnixTarget) (os : OS) (w : World)
    (req : Request) : Option Int :=
  (NetMd.issue X t os (NetMd.prologue X os w req).2 req (NetMd.prologue X os w req).1).map
    (fun s => s.2.2.errno)

/-- The error code the platform call of `NetMd.c` stores when it fails. -/
def NetMd.reported (t : UnixTarget) (os : OS) (w : World) : Int :=
  match t with
  | .linux => (os.sendto (sendtoCount w.calls)).errno
  | .apple => os.connectx.errno
  | .other => w.errno

/-- The platform call of `NetMd.c` fails (returns `-1`). -/
def NetMd.CallFails (t : UnixTarget) (os : OS) (w : World) : Prop :=
  match t with
  | .linux => (os.sendto (sendtoCount w.calls)).ret = -1
  | .apple => os.connectx.ret = -1
  | .other => False

instance NetMd.CallFails.decidable (t : UnixTarget) (os : OS) (w : World) :
    Decidable (NetMd.CallFails t os w) :=
  match t with
  | .linux => inferInstanceAs (Decidable ((os.sendto (sendtoCount w.calls)).ret = -1))
  | .apple => inferInstanceAs (Decidable (os.connectx.ret = -1))
  | .other => inferInstanceAs (Decidable False)

/-- A count the operating system stored, if it stored one, is in `[0, len]`. -/
def CountWithin (len : Int) : Option Int → Prop
  | none => True
  | some k => 0 ≤ k ∧ k ≤ len

instance CountWithin.decidable (len : Int) (o : Option Int) : Decidable (CountWithin len o) :=
  match o with
  | none => inferInstanceAs (Decidable True)
  | some k => inferInstanceAs (Decidable (0 ≤ k ∧ k ≤ len))

/-- What the operating system may report for a payload of `len` bytes.
A: `sendto` returns `-1` or a count in `[0, len]`.
B: `connectx` returns `0` or `-1`; a count it stores is in `[0, len]`; it
leaves `nsent` unset only when it fails with an error other than
`EINPROGRESS`; the stdio calls never store `EINPROGRESS` in `errno`.
C: a count stored by `ConnectEx` is in `[0, len]`, and so is the count of a
successful `GetOverlappedResult`. -/
def MayReport (s : Strategy) (len : Int) (os : OS) (w : World) : Prop :=
  match s with
  | .A =>
    (os.sendto (sendtoCount w.calls)).ret = -1 ∨
    (0 ≤ (os.sendto (sendtoCount w.calls)).ret ∧ (os.sendto (sendtoCount w.calls)).ret ≤ len)
  | .B =>
    (os.connectx.ret = 0 ∨ os.connectx.ret = -1) ∧
    CountWithin len os.connectx.nsent ∧
    (os.connectx.nsent = none →
      os.connectx.ret = -1 ∧ os.connectx.errno ≠ UnixTarget.EINPROGRESS .apple) ∧
    os.fprintf.errno ≠ some (UnixTarget.EINPROGRESS .apple) ∧
    os.fflush.errno ≠ some (UnixTarget.EINPROGRESS .apple)
  | .C =>
    CountWithin len os.ConnectEx.bytesSent ∧
    (os.GetOverlappedResult.ok = true →
      0 ≤ os.GetOverlappedResult.transferred ∧ os.GetOverlappedResult.transferred ≤ len)

instance MayReport.decidable (s : Strategy) (len : Int) (os : OS) (w : World) :
    Decidable (MayReport s len os w) :=
  match s with
  | .A => inferInstanceAs (Decidable
      ((os.sendto (sendtoCount w.calls)).ret = -1 ∨
       (0 ≤ (os.sendto (sendtoCount w.calls)).ret ∧
        (os.sendto (sendtoCount w.calls)).ret ≤ len)))
  | .B => inferInstanceAs (Decidable
      ((os.connectx.ret = 0 ∨ os.connectx.ret = -1) ∧
       CountWithin len os.connectx.nsent ∧
       (os.connectx.nsent = none →
         os.connectx.ret = -1 ∧ os.connectx.errno ≠ UnixTarget.EINPROGRESS .apple) ∧
       os.fprintf.errno ≠ some (UnixTarget.EINPROGRESS .apple) ∧
       os.fflush.errno ≠ some (UnixTarget.EINPROGRESS .apple)))
  | .C => inferInstanceAs (Decidable
      (CountWithin len os.ConnectEx.bytesSent ∧
       (os.GetOverlappedResult.ok = true →
         0 ≤ os.GetOverlappedResult.transferred ∧
         os.GetOverlappedResult.transferred ≤ len)))

/-- The helpers outside the two files signal failure by raising:
`NET_InetAddressToSockaddr` leaves an exception pending whenever it returns
non-zero, and `handleSocketError` either leaves one pending or returns `0`. -/
def Externals.FailuresRaise (X : Externals) : Prop :=
  (∀ env iao port p6, (X.NET_InetAddressToSockaddr env iao port p6).rc ≠ 0 →
    (X.NET_InetAddressToSockaddr env iao port p6).env.pending ≠ none) ∧
  (∀ env e, (X.handleSocketError env e).2.pending ≠ none ∨ (X.handleSocketError env e).1 = 0)

/-- The `sendto` answers of an operating system that gives the answers `pre`
to the first calls, in order, and `r` to every call after them. -/
def tape (pre : List SendtoResp) (r : SendtoResp) : Nat → SendtoResp :=
  fun i => pre.getD i r

/-- An operating system whose primary call succeeds at once with `k` bytes. -/
def successOS (k : Int) : OS :=
  { quietOS with
    sendto := fun _ => { ret := k, errno := 0 }
    connectx := { ret := 0, errno := 0, nsent := some k }
    ConnectEx := { ok := true, bytesSent := some k, lastError := 0, token := OVERLAPPED.zero } }

/-- An operating system whose primary call fails with error code `e` (on
Apple `connectx` stores the count `sent`). -/
def failOS (e : Int) (sent : Int) : OS :=
  { quietOS with
    sendto := fun _ => { ret := -1, errno := e }
    connectx := { ret := -1, errno := e, nsent := some sent }
    ConnectEx := { ok := false, bytesSent := none, lastError := e, token := OVERLAPPED.zero } }

/-- A Windows system on which `ConnectEx` reports `ERROR_IO_PENDING` and the
wait then succeeds with `x` bytes transferred. -/
def pendingOS (x : Int) : OS :=
  { quietOS with
    ConnectEx := { ok := false, bytesSent := none, lastError := ERROR_IO_PENDING,
                   token := { OVERLAPPED.zero with Internal := 259 } }
    GetOverlappedResult := { ok := true, transferred := x, lastError := 0 } }

/-- A token still holding the state of an earlier operation. -/
def staleToken : OVERLAPPED :=
  { Internal := 259, InternalHigh := 10, Offset := 0, OffsetHigh := 0, hEvent := 77 }

/-- The same operating system with the Darwin message table. -/
def onDarwin (os : OS) : OS := { os with strerror := darwinStrerror }

/-- An operating system on which `/tmp/foo.txt` cannot be opened
(`EACCES`, 13). -/
def noLog (os : OS) : OS := { os with fopen := { opened := false, size := 0, errno := 13 } }

/-- An operating system on which every write to `/tmp/foo.txt` fails for lack
of space (`ENOSPC`, 28). -/
def diskFull (os : OS) : OS :=
  { os with fprintf := { errno := some 28 }, fflush := { errno := some 28 } }

/-- What the debug stream holds after 240 earlier Linux calls that each sent
16 bytes: 240 lines of 17 characters. -/
def earlierLines : List Char :=
  (List.replicate 240 "XXX: 16 Success \n".data).flatten

/-- A Linux process in which 240 earlier calls have left 4080 characters in
the 4096-character buffer of the debug stream, nothing having been written
to the file yet (the trace of calls is started afresh). -/
def busyWorld : World where
  env := { pending := none }
  errno := 0
  lastError := 0
  file := some { path := "/tmp/foo.txt", mode := "a", size := 4096, buf := earlierLines }
  tmpFoo := []
  overlapped := OVERLAPPED.zero
  calls := []

/-- A Linux system whose first `sendto` is interrupted and whose second would
send 16 bytes. -/
def interruptedOS : OS :=
  { quietOS with sendto := tape [{ ret := -1, errno := EINTR }] { ret := 16, errno := 0 } }


/-! ## Auxiliary facts -/

theorem toInt32_of_range (k : Int) (h0 : 0 ≤ k) (h1 : k < 2147483648) :
    toInt32 k = k := by
  unfold toInt32; omega

theorem toInt32_neg_one : toInt32 (-1) = -1 := by decide

theorem sendtoCount_append (xs ys : List Call) :
    sendtoCount (xs ++ ys) = sendtoCount xs + sendtoCount ys := by
  simp [sendtoCount]

theorem connectExTokens_append (xs ys : List Call) :
    connectExTokens (xs ++ ys) = connectExTokens xs ++ connectExTokens ys := by
  induction xs with
  | nil => rfl
  | cons c cs ih => cases c <;> simp [connectExTokens, ih]

/-! ### The stream buffer -/

/-- Putting characters never removes a block to transmit. -/
theorem foldl_putChar_blocks_le (size : Nat) (cs : List Char) (buf : List Char)
    (blocks : List (List Char)) :
    blocks.length ≤ (cs.foldl (putChar size) (buf, blocks)).2.length := by
  induction cs generalizing buf blocks with
  | nil => exact le_refl _
  | cons c cs ih =>
    simp only [List.foldl_cons, putChar]
    split
    · exact le_trans (by simp) (ih _ _)
    · exact ih _ _

/-- Characters that do not fit in the buffer force a block to be transmitted. -/
theorem foldl_putChar_blocks_lt (size : Nat) (cs : List Char) (buf : List Char)
    (blocks : List (List Char)) (hinv : buf.length ≤ size)
    (hover : size < buf.length + cs.length) :
    blocks.length < (cs.foldl (putChar size) (buf, blocks)).2.length := by
  induction cs generalizing buf blocks with
  | nil => simp at hover; omega
  | cons c cs ih =>
    simp only [List.foldl_cons, putChar]
    split
    · exact lt_of_lt_of_le (by simp) (foldl_putChar_blocks_le size cs _ _)
    · rename_i hlt
      refine ih _ _ ?_ ?_
      · simp only [List.length_append, List.length_singleton]; omega
      · simp only [List.length_append, List.length_singleton, List.length_cons] at hover ⊢
        omega

/-- Characters that fit in the buffer are kept there: nothing is transmitted. -/
theorem foldl_putChar_fits (size : Nat) (cs : List Char) (buf : List Char)
    (blocks : List (List Char)) (hfit : buf.length + cs.length ≤ size) :
    cs.foldl (putChar size) (buf, blocks) = (buf ++ cs, blocks) := by
  induction cs generalizing buf with
  | nil => simp
  | cons c cs ih =>
    simp only [List.length_cons] at hfit
    have hlt : ¬ size ≤ buf.length := by omega
    simp only [List.foldl_cons, putChar, hlt, if_false]
    rw [ih]
    · simp
    · simp only [List.length_append, List.length_singleton]; omega

theorem put_blocks_ne_nil (f : FILE) (cs : List Char) (hinv : f.buf.length ≤ f.size)
    (hover : f.size < f.buf.length + cs.length) : (f.put cs).2 ≠ [] := by
  intro h
  have := foldl_putChar_blocks_lt f.size cs f.buf [] hinv hover
  simp only [FILE.put] at h
  rw [h] at this
  simp at this

theorem put_fits (f : FILE) (cs : List Char) (hfit : f.buf.length + cs.length ≤ f.size) :
    f.put cs = ({ f with buf := f.buf ++ cs }, []) := by
  simp only [FILE.put, foldl_putChar_fits f.size cs f.buf [] hfit]

/-! ### The stdio calls -/

theorem fprintf_eq_none (os : OS) (w : World) (line : LogLine) :
    fprintf os w line = none ↔ w.file = none := by
  unfold fprintf
  cases hf : w.file with
  | none => simp
  | some f =>
    simp only [reduceCtorEq, iff_false]
    split
    · simp
    · cases os.fprintf.errno <;> simp

theorem fprintf_env (os : OS) (w w2 : World) (line : LogLine)
    (h : fprintf os w line = some w2) : w2.env = w.env := by
  unfold fprintf at h
  cases hf : w.file with
  | none => simp [hf] at h
  | some f =>
    simp only [hf] at h
    split at h
    · cases h; rfl
    · cases he : os.fprintf.errno <;> simp only [he] at h <;> cases h <;> rfl

theorem fprintf_calls (os : OS) (w w2 : World) (line : LogLine)
    (h : fprintf os w line = some w2) : w2.calls = w.calls ++ [Call.fprintf line] := by
  unfold fprintf at h
  cases hf : w.file with
  | none => simp [hf] at h
  | some f =>
    simp only [hf] at h
    split at h
    · cases h; rfl
    · cases he : os.fprintf.errno <;> simp only [he] at h <;> cases h <;> rfl

/-- The debug print leaves `errno` alone unless a write it makes fails. -/
theorem fprintf_errno (os : OS) (w w2 : World) (line : LogLine)
    (h : fprintf os w line = some w2) :
    w2.errno = w.errno ∨ os.fprintf.errno = some w2.errno := by
  unfold fprintf at h
  cases hf : w.file with
  | none => simp [hf] at h
  | some f =>
    simp only [hf] at h
    split at h
    · cases h; exact Or.inl rfl
    · cases he : os.fprintf.errno with
      | none => simp only [he] at h; cases h; exact Or.inl rfl
      | some e => simp only [he] at h; cases h; exact Or.inr rfl

/-- A debug print that has to transmit a block and whose write fails stores
the error code of the write in `errno`. -/
theorem fprintf_failed_write (os : OS) (w : World) (line : LogLine) (f : FILE) (e : Int)
    (hfile : w.file = some f) (hinv : f.buf.length ≤ f.size)
    (hover : f.size < f.buf.length + (line.render os.strerror).length)
    (hpr : os.fprintf.errno = some e) :
    fprintf os w line = some { w with errno := e, calls := w.calls ++ [Call.fprintf line] } := by
  unfold fprintf
  simp only [hfile, put_blocks_ne_nil f _ hinv hover, if_false, hpr]

theorem fflush_env (os : OS) (w : World) : (fflush os w).env = w.env := by
  unfold fflush
  cases w.file with
  | none => rfl
  | some f =>
    simp only []
    split
    · rfl
    · cases os.fflush.errno <;> rfl

/-- The flush leaves `errno` alone unless the write it makes fails. -/
theorem fflush_errno (os : OS) (w : World) :
    (fflush os w).errno = w.errno ∨ os.fflush.errno = some (fflush os w).errno := by
  unfold fflush
  cases w.file with
  | none => exact Or.inl rfl
  | some f =>
    simp only []
    split
    · exact Or.inl rfl
    · cases he : os.fflush.errno with
      | none => exact Or.inl rfl
      | some e => exact Or.inr rfl

/-! ### `NetMd.c` -/

@[simp] theorem openLog_env (os : OS) (w : World) : (NetMd.openLog os w).env = w.env := by
  unfold NetMd.openLog fopen; split <;> [split; skip] <;> rfl

@[simp] theorem openLog_sendtoCount (os : OS) (w : World) :
    sendtoCount (NetMd.openLog os w).calls = sendtoCount w.calls := by
  unfold NetMd.openLog fopen
  split
  · split <;> simp [sendtoCount_append, sendtoCount, Call.isSendto]
  · rfl

/-- A stream that is already open is left as it is. -/
theorem openLog_of_open (os : OS) (w : World) (f : FILE) (hfile : w.file = some f) :
    NetMd.openLog os w = w := by
  simp [NetMd.openLog, hfile]

@[simp] theorem prologue_addr (X : Externals) (os : OS) (w : World) (req : Request) :
    (NetMd.prologue X os w req).1 =
      X.NET_InetAddressToSockaddr w.env req.iao req.port req.preferIPv6 := by
  simp only [NetMd.prologue, openLog_env]

@[simp] theorem prologue_env (X : Externals) (os : OS) (w : World) (req : Request) :
    (NetMd.prologue X os w req).2.env =
      (X.NET_InetAddressToSockaddr w.env req.iao req.port req.preferIPv6).env := by
  simp only [NetMd.prologue, openLog_env]

@[simp] theorem prologue_sendtoCount (X : Externals) (os : OS) (w : World) (req : Request) :
    sendtoCount (NetMd.prologue X os w req).2.calls = sendtoCount w.calls := by
  simp only [NetMd.prologue, openLog_sendtoCount]

theorem prologue_file_of_open (X : Externals) (os : OS) (w : World) (req : Request)
    (f : FILE) (hfile : w.file = some f) : (NetMd.prologue X os w req).2.file = some f := by
  simp only [NetMd.prologue, openLog_of_open os w f hfile, hfile]

/-- With a successful address construction the function is the classification
run on what the platform call and the debug print left behind. -/
theorem connectx0_eq_classify (X : Externals) (t : UnixTarget) (os : OS) (w : World)
    (req : Request)
    (haddr : (X.NET_InetAddressToSockaddr w.env req.iao req.port req.preferIPv6).rc = 0) :
    Java_sun_nio_ch_NetMd_connectx0 X t os w req =
      (NetMd.issue X t os (NetMd.prologue X os w req).2 req (NetMd.prologue X os w req).1).map
        (fun s => NetMd.classify X t s.1 s.2.1 s.2.2) := by
  have h : (NetMd.prologue X os w req).1.rc = 0 := by rw [prologue_addr]; exact haddr
  simp only [Java_sun_nio_ch_NetMd_connectx0, h, ne_eq, not_true_eq_false, if_false]

/-- When address construction fails the function returns `IOS_THROWN` at once. -/
theorem connectx0_addr_fails (X : Externals) (t : UnixTarget) (os : OS) (w : World)
    (req : Request)
    (haddr : (X.NET_InetAddressToSockaddr w.env req.iao req.port req.preferIPv6).rc ≠ 0) :
    Java_sun_nio_ch_NetMd_connectx0 X t os w req =
      some (X.IOS_THROWN, (NetMd.prologue X os w req).2) := by
  have h : (NetMd.prologue X os w req).1.rc ≠ 0 := by rw [prologue_addr]; exact haddr
  simp only [Java_sun_nio_ch_NetMd_connectx0, h, ne_eq, not_false_eq_true, if_true]

/-- The platform call and the debug print leave the JNI environment alone. -/
theorem issue_env (X : Externals) (t : UnixTarget) (os : OS) (w : World)
    (req : Request) (a : AddrResult) (s : Int × Int × World)
    (h : NetMd.issue X t os w req a = some s) : s.2.2.env = w.env := by
  cases t
  · simp only [NetMd.issue, Option.map_eq_some'] at h
    obtain ⟨w2, hw2, rfl⟩ := h
    have h1 := fprintf_env os _ w2 _ hw2
    exact h1
  · simp only [NetMd.issue, Option.map_eq_some'] at h
    obtain ⟨w2, hw2, rfl⟩ := h
    have h1 := fprintf_env os _ w2 _ hw2
    simp only [fflush_env]
    exact h1
  · simp only [NetMd.issue, Option.some.injEq] at h
    subst h
    rfl

/-- On Linux `n` is the `sendto` result truncated to `int`. -/
theorem issue_linux_n (X : Externals) (os : OS) (w : World) (req : Request)
    (a : AddrResult) (s : Int × Int × World)
    (h : NetMd.issue X .linux os w req a = some s) :
    s.1 = toInt32 (os.sendto (sendtoCount w.calls)).ret := by
  simp only [NetMd.issue, Option.map_eq_some'] at h
  obtain ⟨w2, _, rfl⟩ := h
  rfl

/-- On Linux the classification reads the `errno` left by `sendto`, unless a
write made by the debug print failed. -/
theorem issue_linux_errno (X : Externals) (os : OS) (w : World) (req : Request)
    (a : AddrResult) (s : Int × Int × World)
    (h : NetMd.issue X .linux os w req a = some s) :
    s.2.2.errno =
        (if (os.sendto (sendtoCount w.calls)).ret < 0
         then (os.sendto (sendtoCount w.calls)).errno else w.errno) ∨
      os.fprintf.errno = some s.2.2.errno := by
  simp only [NetMd.issue, Option.map_eq_some'] at h
  obtain ⟨w2, hw2, rfl⟩ := h
  have h1 := fprintf_errno os _ w2 _ hw2
  exact h1

/-- On Apple `n` is the `connectx` result. -/
theorem issue_apple_n (X : Externals) (os : OS) (w : World) (req : Request)
    (a : AddrResult) (s : Int × Int × World)
    (h : NetMd.issue X .apple os w req a = some s) : s.1 = os.connectx.ret := by
  simp only [NetMd.issue, Option.map_eq_some'] at h
  obtain ⟨w2, _, rfl⟩ := h
  rfl

/-- On Apple `nsent` holds what `connectx` stored, or its initial content. -/
theorem issue_apple_nsent (X : Externals) (os : OS) (w : World) (req : Request)
    (a : AddrResult) (s : Int × Int × World)
    (h : NetMd.issue X .apple os w req a = some s) :
    s.2.1 = os.connectx.nsent.getD os.nsentInit := by
  simp only [NetMd.issue, Option.map_eq_some'] at h
  obtain ⟨w2, _, rfl⟩ := h
  rfl

/-- On Apple the classification reads the `errno` left by `connectx`, unless a
write made by the debug print or by the flush failed. -/
theorem issue_apple_errno (X : Externals) (os : OS) (w : World) (req : Request)
    (a : AddrResult) (s : Int × Int × World)
    (h : NetMd.issue X .apple os w req a = some s) :
    s.2.2.errno = (if os.connectx.ret < 0 then os.connectx.errno else w.errno) ∨
      os.fprintf.errno = some s.2.2.errno ∨ os.fflush.errno = some s.2.2.errno := by
  simp only [NetMd.issue, Option.map_eq_some'] at h
  obtain ⟨w2, hw2, rfl⟩ := h
  rcases fflush_errno os w2 with h1 | h1
  · rcases fprintf_errno os _ w2 _ hw2 with h2 | h2
    · left
      simp only [h1, h2]
      rfl
    · right; left
      simp only [h1]
      exact h2
  · right; right
    exact h1

/-- A failed platform call makes `n` negative. -/
theorem issue_neg_of_fails (X : Externals) (t : UnixTarget) (os : OS) (w w0 : World)
    (req : Request) (a : AddrResult) (s : Int × Int × World)
    (h : NetMd.issue X t os w req a = some s)
    (hcalls : sendtoCount w.calls = sendtoCount w0.calls)
    (hfail : NetMd.CallFails t os w0) : s.1 < 0 := by
  cases t
  · simp only [NetMd.CallFails] at hfail
    rw [issue_linux_n X os w req a s h, hcalls, hfail, toInt32_neg_one]
    decide
  · simp only [NetMd.CallFails] at hfail
    rw [issue_apple_n X os w req a s h, hfail]
    decide
  · exact absurd hfail (by simp [NetMd.CallFails])

/-- Exactly one `sendto` is issued on Linux. -/
theorem issue_linux_sendtoCount (X : Externals) (os : OS) (w : World) (req : Request)
    (a : AddrResult) (s : Int × Int × World)
    (h : NetMd.issue X .linux os w req a = some s) :
    sendtoCount s.2.2.calls = sendtoCount w.calls + 1 := by
  simp only [NetMd.issue, Option.map_eq_some'] at h
  obtain ⟨w2, hw2, rfl⟩ := h
  simp only [fprintf_calls os _ w2 _ hw2]
  simp [sendto, sendtoCount, Call.isSendto]

/-- The classification issues no call. -/
theorem classify_calls (X : Externals) (t : UnixTarget) (n nsent : Int) (w : World) :
    (NetMd.classify X t n nsent w).2.calls = w.calls := by
  cases t <;> simp only [NetMd.classify] <;> repeat (first | rfl | split)

theorem classify_emsgsize (X : Externals) (t : UnixTarget) (n nsent : Int) (w : World)
    (ht : t ≠ .other) (hn : n < 0) (herr : w.errno = t.EMSGSIZE) :
    NetMd.classify X t n nsent w =
      (X.IOS_THROWN, { w with env := JNU_ThrowIOException w.env "TFO data too large" }) := by
  cases t
  · simp [NetMd.classify, hn, herr]
  · simp [NetMd.classify, hn, herr]
  · exact absurd rfl ht

theorem classify_other_errno (X : Externals) (t : UnixTarget) (n nsent : Int) (w : World)
    (ht : t ≠ .other) (hn : n < 0) (h1 : w.errno ≠ t.EMSGSIZE)
    (h2 : w.errno ≠ t.EINPROGRESS) :
    NetMd.classify X t n nsent w =
      ((X.handleSocketError w.env w.errno).1,
       { w with env := (X.handleSocketError w.env w.errno).2 }) := by
  cases t
  · simp [NetMd.classify, hn, h1, h2]
  · simp [NetMd.classify, hn, h1, h2]
  · exact absurd rfl ht

theorem classify_linux_einprogress (X : Externals) (n nsent : Int) (w : World)
    (hn : n < 0) (herr : w.errno = UnixTarget.EINPROGRESS .linux) :
    NetMd.classify X .linux n nsent w = (0, w) := by
  simp [NetMd.classify, hn, herr, UnixTarget.EMSGSIZE, UnixTarget.EINPROGRESS]

theorem classify_apple_einprogress (X : Externals) (n nsent : Int) (w : World)
    (hn : n < 0) (herr : w.errno = UnixTarget.EINPROGRESS .apple) :
    NetMd.classify X .apple n nsent w = (toInt32 nsent, w) := by
  simp [NetMd.classify, hn, herr, UnixTarget.EMSGSIZE, UnixTarget.EINPROGRESS]

theorem classify_linux_nonneg (X : Externals) (n nsent : Int) (w : World)
    (hn : 0 ≤ n) : NetMd.classify X .linux n nsent w = (toInt32 n, w) := by
  simp [NetMd.classify, not_lt.mpr hn]

theorem classify_apple_nonneg (X : Externals) (n nsent : Int) (w : World)
    (hn : 0 ≤ n) : NetMd.classify X .apple n nsent w = (toInt32 nsent, w) := by
  simp [NetMd.classify, not_lt.mpr hn]

theorem callFails_ne_other (t : UnixTarget) (os : OS) (w : World)
    (hfail : NetMd.CallFails t os w) : t ≠ .other := by
  rintro rfl
  exact hfail

/-- On a failed call that leaves no exception pending, the classification
yields a count in `[0, len]` provided `nsent` does when the error code read is
`EINPROGRESS`. -/
theorem classify_failed_within (X : Externals) (t : UnixTarget) (n nsent len : Int)
    (w : World) (ht : t ≠ .other) (hn : n < 0) (hlen0 : 0 ≤ len)
    (hX : ∀ env e, (X.handleSocketError env e).2.pending ≠ none ∨
      (X.handleSocketError env e).1 = 0)
    (hns : t = .apple → w.errno = t.EINPROGRESS → 0 ≤ toInt32 nsent ∧ toInt32 nsent ≤ len)
    (hnoexc : (NetMd.classify X t n nsent w).2.env.pending = none) :
    0 ≤ (NetMd.classify X t n nsent w).1 ∧ (NetMd.classify X t n nsent w).1 ≤ len := by
  by_cases h1 : w.errno = t.EMSGSIZE
  · rw [classify_emsgsize X t n nsent w ht hn h1] at hnoexc
    simp [JNU_ThrowIOException] at hnoexc
  · by_cases h2 : w.errno = t.EINPROGRESS
    · cases t
      · rw [classify_linux_einprogress X n nsent w hn h2]
        exact ⟨le_refl _, hlen0⟩
      · rw [classify_apple_einprogress X n nsent w hn h2]
        exact hns rfl h2
      · exact absurd rfl ht
    · rw [classify_other_errno X t n nsent w ht hn h1 h2] at hnoexc ⊢
      rcases hX w.env w.errno with h | h
      · exact absurd hnoexc h
      · simp only [h]
        exact ⟨le_refl _, hlen0⟩

/-- A run of `NetMd.c` that returns after a successful address construction
is the classification of what the platform call and the debug print left. -/
theorem connectx0_some (X : Externals) (t : UnixTarget) (os : OS) (w : World)
    (req : Request) (r : Int × World)
    (haddr : (X.NET_InetAddressToSockaddr w.env req.iao req.port req.preferIPv6).rc = 0)
    (hret : Java_sun_nio_ch_NetMd_connectx0 X t os w req = some r) :
    ∃ s, NetMd.issue X t os (NetMd.prologue X os w req).2 req (NetMd.prologue X os w req).1 =
        some s ∧ r = NetMd.classify X t s.1 s.2.1 s.2.2 := by
  rw [connectx0_eq_classify X t os w req haddr, Option.map_eq_some'] at hret
  obtain ⟨s, hs, rfl⟩ := hret
  exact ⟨s, hs, rfl⟩

/-- The error code read by the classification is the one in the world the
platform call and the debug print left. -/
theorem errnoRead_some (X : Externals) (t : UnixTarget) (os : OS) (w : World)
    (req : Request) (e : Int) (herr : NetMd.errnoRead X t os w req = some e) :
    ∃ s, NetMd.issue X t os (NetMd.prologue X os w req).2 req (NetMd.prologue X os w req).1 =
        some s ∧ s.2.2.errno = e := by
  simp only [NetMd.errnoRead, Option.map_eq_some'] at herr
  exact herr

/-- A run of `NetMd.c` is undefined exactly when address construction
succeeds, the target has a debug print, and the debug stream is `NULL` when
the print is reached. -/
theorem connectx0_eq_none_iff (X : Externals) (t : UnixTarget) (os : OS) (w : World)
    (req : Request) :
    Java_sun_nio_ch_NetMd_connectx0 X t os w req = none ↔
      (X.NET_InetAddressToSockaddr w.env req.iao req.port req.preferIPv6).rc = 0 ∧
      t ≠ .other ∧ (NetMd.prologue X os w req).2.file = none := by
  by_cases hrc : (X.NET_InetAddressToSockaddr w.env req.iao req.port req.preferIPv6).rc = 0
  · rw [connectx0_eq_classify X t os w req hrc]
    cases t
    · simp [NetMd.issue, fprintf_eq_none, sendto, hrc]
    · simp [NetMd.issue, fprintf_eq_none, connectx, hrc]
    · simp [NetMd.issue, hrc]
  · rw [connectx0_addr_fails X t os w req hrc]
    simp [hrc]

/-- When the run returns, an immediate success with count `k`, `0 <= k <= len`,
is returned as `k` with the JNI environment as address construction left it. -/
theorem success_count_if_returns (X : Externals) (s : Strategy) (os : OS)
    (w : World) (req : Request) (k : Int) (r : Int × World)
    (haddr : (X.NET_InetAddressToSockaddr w.env req.iao req.port req.preferIPv6).rc = 0)
    (hk0 : 0 ≤ k) (hk : k ≤ req.len) (hlen : req.len < 2147483648)
    (hsucc : ImmediateSuccess s os w k)
    (hret : attempt X s os w req = some r) :
    r.1 = k ∧
    r.2.env = (X.NET_InetAddressToSockaddr w.env req.iao req.port req.preferIPv6).env := by
  have hk31 : k < 2147483648 := lt_of_le_of_lt hk hlen
  have hconv : toInt32 k = k := toInt32_of_range k hk0 hk31
  cases s
  · simp only [ImmediateSuccess] at hsucc
    simp only [attempt] at hret
    obtain ⟨s, hs, rfl⟩ := connectx0_some X .linux os w req r haddr hret
    have hn : s.1 = k := by
      rw [issue_linux_n X os _ req _ s hs, prologue_sendtoCount, hsucc, hconv]
    rw [classify_linux_nonneg X _ _ _ (by rw [hn]; exact hk0), hn, hconv]
    exact ⟨rfl, by rw [issue_env X .linux os _ req _ s hs, prologue_env]⟩
  · simp only [ImmediateSuccess] at hsucc
    obtain ⟨hret0, hns⟩ := hsucc
    simp only [attempt] at hret
    obtain ⟨s, hs, rfl⟩ := connectx0_some X .apple os w req r haddr hret
    rw [classify_apple_nonneg X _ _ _ (by rw [issue_apple_n X os _ req _ s hs]; exact hret0),
      issue_apple_nsent X os _ req _ s hs, hns, Option.getD_some, hconv]
    exact ⟨rfl, by rw [issue_env X .apple os _ req _ s hs, prologue_env]⟩
  · simp only [ImmediateSuccess] at hsucc
    obtain ⟨hok, hbs⟩ := hsucc
    simp only [attempt, Option.some.injEq] at hret
    subst hret
    simp [Java_sun_nio_ch_ConnectxImpl_startConnect0, haddr, ConnectEx, ZeroMemory,
      hok, hbs, hconv]

/-- When the platform call fails and the error code the classification reads
is `EMSGSIZE`, `IOException` "TFO data too large" is raised and `IOS_THROWN`
returned. -/
theorem emsgsize_if_read (X : Externals) (t : UnixTarget) (os : OS)
    (w : World) (req : Request)
    (haddr : (X.NET_InetAddressToSockaddr w.env req.iao req.port req.preferIPv6).rc = 0)
    (hfail : NetMd.CallFails t os w)
    (herr : NetMd.errnoRead X t os w req = some t.EMSGSIZE) :
    (Java_sun_nio_ch_NetMd_connectx0 X t os w req).map outcome =
      some (X.IOS_THROWN, some (Throwable.IOException "TFO data too large")) := by
  obtain ⟨s, hs, he⟩ := errnoRead_some X t os w req _ herr
  rw [connectx0_eq_classify X t os w req haddr, hs, Option.map_some', Option.map_some',
    classify_emsgsize X t _ _ _ (callFails_ne_other t os w hfail)
      (issue_neg_of_fails X t os _ w req _ s hs (prologue_sendtoCount X os w req) hfail) he]
  rfl

/-- When `sendto` fails and the error code the classification reads is
`EINPROGRESS`, the Linux body returns `0` and raises nothing. -/
theorem in_progress_if_read (X : Externals) (os : OS) (w : World) (req : Request)
    (haddr : (X.NET_InetAddressToSockaddr w.env req.iao req.port req.preferIPv6).rc = 0)
    (hfail : NetMd.CallFails .linux os w)
    (herr : NetMd.errnoRead X .linux os w req = some (UnixTarget.EINPROGRESS .linux)) :
    ∃ r, attempt X .A os w req = some r ∧ r.1 = 0 ∧
      r.2.env = (X.NET_InetAddressToSockaddr w.env req.iao req.port req.preferIPv6).env := by
  obtain ⟨s, hs, he⟩ := errnoRead_some X .linux os w req _ herr
  refine ⟨NetMd.classify X .linux s.1 s.2.1 s.2.2, ?_, ?_⟩
  · simp only [attempt]
    rw [connectx0_eq_classify X .linux os w req haddr, hs, Option.map_some']
  · rw [classify_linux_einprogress X _ _ _
      (issue_neg_of_fails X .linux os _ w req _ s hs (prologue_sendtoCount X os w req) hfail) he]
    exact ⟨rfl, by rw [issue_env X .linux os _ req _ s hs, prologue_env]⟩

/-- When no write to the debug file fails, the error code the classification
reads is the one the failed platform call reported. -/
theorem errnoRead_of_quiet_stdio (X : Externals) (t : UnixTarget) (os : OS) (w : World)
    (req : Request) (e : Int) (hfail : NetMd.CallFails t os w)
    (hpr : os.fprintf.errno = none) (hfl : os.fflush.errno = none)
    (herr : NetMd.errnoRead X t os w req = some e) :
    e = NetMd.reported t os w := by
  obtain ⟨s, hs, he⟩ := errnoRead_some X t os w req _ herr
  cases t
  · simp only [NetMd.CallFails] at hfail
    rcases issue_linux_errno X os _ req _ s hs with h | h
    · rw [prologue_sendtoCount, hfail] at h
      simp only [show ((-1 : Int) < 0) = True from by simp, if_true] at h
      rw [← he, h]
      rfl
    · rw [hpr] at h
      cases h
  · simp only [NetMd.CallFails] at hfail
    rcases issue_apple_errno X os _ req _ s hs with h | h | h
    · rw [hfail] at h
      simp only [show ((-1 : Int) < 0) = True from by simp, if_true] at h
      rw [← he, h]
      rfl
    · rw [hpr] at h
      cases h
    · rw [hfl] at h
      cases h
  · exact absurd hfail (by simp [NetMd.CallFails])

/-- With a successful address construction, a failed platform call and an
error code read that is neither `EMSGSIZE` nor `EINPROGRESS`, the function
returns what `handleSocketError` returns for the code read. -/
theorem other_error_handled (X : Externals) (t : UnixTarget) (os : OS) (w : World)
    (req : Request) (e : Int)
    (haddr : (X.NET_InetAddressToSockaddr w.env req.iao req.port req.preferIPv6).rc = 0)
    (hfail : NetMd.CallFails t os w)
    (herr : NetMd.errnoRead X t os w req = some e)
    (h1 : e ≠ t.EMSGSIZE) (h2 : e ≠ t.EINPROGRESS) :
    (Java_sun_nio_ch_NetMd_connectx0 X t os w req).map outcome =
      some ((X.handleSocketError
          (X.NET_InetAddressToSockaddr w.env req.iao req.port req.preferIPv6).env e).1,
       (X.handleSocketError
          (X.NET_InetAddressToSockaddr w.env req.iao req.port req.preferIPv6).env e).2.pending) := by
  obtain ⟨s, hs, he⟩ := errnoRead_some X t os w req _ herr
  subst he
  rw [connectx0_eq_classify X t os w req haddr, hs, Option.map_some', Option.map_some',
    classify_other_errno X t _ _ _ (callFails_ne_other t os w hfail)
      (issue_neg_of_fails X t os _ w req _ s hs (prologue_sendtoCount X os w req) hfail) h1 h2]
  simp only [outcome, issue_env X t os _ req _ s hs, prologue_env]

/-- On Linux, when the debug stream is open, the line does not fit in what is
left of its buffer and the write of the filled block fails with code `e`, the
classification reads `e`. -/
theorem errnoRead_linux_failed_write (X : Externals) (os : OS) (w : World)
    (req : Request) (f : FILE) (e : Int) (held need : Nat)
    (hfile : w.file = some f) (hheld : f.buf.length = held)
    (hneed : ((NetMd.linuxLine (toInt32 (os.sendto (sendtoCount w.calls)).ret)
        (if (os.sendto (sendtoCount w.calls)).ret < 0
         then (os.sendto (sendtoCount w.calls)).errno else w.errno)).render os.strerror).length =
      need)
    (hinv : held ≤ f.size) (hover : f.size < held + need)
    (hpr : os.fprintf.errno = some e) :
    NetMd.errnoRead X .linux os w req = some e := by
  have hw : (NetMd.prologue X os w req).2 =
      { w with env := (X.NET_InetAddressToSockaddr w.env req.iao req.port req.preferIPv6).env } := by
    simp only [NetMd.prologue, openLog_of_open os w f hfile]
  subst hheld hneed
  simp only [NetMd.errnoRead, NetMd.issue, hw]
  rw [fprintf_failed_write os _ _ f e (by simpa [sendto] using hfile) hinv
    (by simpa [sendto] using hover) hpr]
  rfl

/-- On Windows every `ConnectEx` failure other than `ERROR_IO_PENDING` raises
an `IOException` built from the last error and returns `IOS_THROWN`. -/
theorem connectEx_other_failure (X : Externals) (os : OS) (w : World) (req : Request)
    (haddr : (X.NET_InetAddressToSockaddr w.env req.iao req.port req.preferIPv6).rc = 0)
    (hfail : os.ConnectEx.ok = false)
    (hne : toInt32 os.ConnectEx.lastError ≠ ERROR_IO_PENDING) :
    outcome (Java_sun_nio_ch_ConnectxImpl_startConnect0 X os w req) =
      (X.IOS_THROWN,
       some (Throwable.IOExceptionWithLastError os.ConnectEx.lastError "ConnectEx failed")) := by
  simp [outcome, Java_sun_nio_ch_ConnectxImpl_startConnect0, haddr, ConnectEx, ZeroMemory,
    hfail, hne, JNU_ThrowIOExceptionWithLastError]

/-- The Windows entry point never touches the debug stream or its file. -/
theorem startConnect0_logState (X : Externals) (os : OS) (w : World) (req : Request) :
    (Java_sun_nio_ch_ConnectxImpl_startConnect0 X os w req).2.logState = w.logState := by
  simp only [Java_sun_nio_ch_ConnectxImpl_startConnect0, ConnectEx, ZeroMemory,
    GetOverlappedResult, World.logState]
  repeat (first | rfl | split)

theorem earlierLines_length : earlierLines.length = 4080 := by
  have h : "XXX: 16 Success \n".data.length = 17 := by decide
  unfold earlierLines
  rw [List.length_flatten, List.map_replicate, List.sum_replicate, h]
  rfl

theorem refExternals_failuresRaise : refExternals.FailuresRaise := by
  constructor
  · intro env iao port p6 h
    by_cases hi : iao = 0
    · simp [refExternals, hi]
    · simp [refExternals, hi] at h
  · intro env e
    left
    simp [refExternals, handleSocketErrorSpec]

/-! ## The claims -/

set_option maxRecDepth 2000

/-- C1 (failing input). `len = 16` and the primary call reports 16 bytes sent,
but `/tmp/foo.txt` cannot be opened: on Linux and on Apple the global stream
stays `NULL`, the debug print after the call is handed the `NULL` stream, and
the run has no result, where the claim has it return 16. With the file
openable the same calls return 16 and raise nothing. -/
theorem null_stream_print_faults :
    ((noLog (successOS 16)).sendto 0).ret = 16 ∧
    attempt refExternals .A (noLog (successOS 16)) freshWorld (request 16) = none ∧
    (onDarwin (noLog (successOS 16))).connectx = { ret := 0, errno := 0, nsent := some 16 } ∧
    attempt refExternals .B (onDarwin (noLog (successOS 16))) freshWorld (request 16) = none ∧
    (NetMd.prologue refExternals (noLog (successOS 16)) freshWorld (request 16)).2.file = none ∧
    (attempt refExternals .A (successOS 16) freshWorld (request 16)).map outcome =
      some (16, none) := by
  refine ⟨rfl, ?_, rfl, ?_, ?_, ?_⟩ <;> decide

/-- C2. For all strategies, every request with `0 <= len` (a `jint`) and every
outcome the operating-system calls may report, a value returned with no
exception pending lies in `[0, len]`; for `len = 0` it is `0`. -/
theorem returned_count_within_len (X : Externals) (s : Strategy) (os : OS)
    (w : World) (req : Request) (r : Int × World)
    (hX : X.FailuresRaise) (hlen0 : 0 ≤ req.len) (hlen : req.len < 2147483648)
    (hos : MayReport s req.len os w)
    (hret : attempt X s os w req = some r)
    (hnoexc : r.2.env.pending = none) :
    0 ≤ r.1 ∧ r.1 ≤ req.len := by
  obtain ⟨hXa, hXh⟩ := hX
  cases s
  · -- Linux
    simp only [attempt] at hret
    by_cases hrc : (X.NET_InetAddressToSockaddr w.env req.iao req.port req.preferIPv6).rc = 0
    · obtain ⟨s, hs, rfl⟩ := connectx0_some X .linux os w req r hrc hret
      simp only [MayReport] at hos
      rcases hos with hfail | ⟨h0, h1⟩
      · exact classify_failed_within X .linux _ _ req.len _ (by decide)
          (issue_neg_of_fails X .linux os _ w req _ s hs
            (prologue_sendtoCount X os w req) hfail) hlen0 hXh
          (fun h => absurd h (by decide)) hnoexc
      · have hc : toInt32 (os.sendto (sendtoCount w.calls)).ret =
            (os.sendto (sendtoCount w.calls)).ret :=
          toInt32_of_range _ h0 (lt_of_le_of_lt h1 hlen)
        have hn : s.1 = (os.sendto (sendtoCount w.calls)).ret := by
          rw [issue_linux_n X os _ req _ s hs, prologue_sendtoCount, hc]
        rw [classify_linux_nonneg X _ _ _ (by rw [hn]; exact h0), hn, hc]
        exact ⟨h0, h1⟩
    · rw [connectx0_addr_fails X .linux os w req hrc, Option.some.injEq] at hret
      subst hret
      exact absurd (by simpa using hnoexc) (hXa _ _ _ _ hrc)
  · -- Apple
    simp only [attempt] at hret
    by_cases hrc : (X.NET_InetAddressToSockaddr w.env req.iao req.port req.preferIPv6).rc = 0
    · obtain ⟨s, hs, rfl⟩ := connectx0_some X .apple os w req r hrc hret
      simp only [MayReport] at hos
      obtain ⟨hret', hstored, hunset, hpf, hff⟩ := hos
      have hsome : ∀ k, os.connectx.nsent = some k →
          0 ≤ toInt32 k ∧ toInt32 k ≤ req.len := by
        intro k hns
        rw [hns] at hstored
        obtain ⟨hk0, hk1⟩ := hstored
        rw [toInt32_of_range k hk0 (lt_of_le_of_lt hk1 hlen)]
        exact ⟨hk0, hk1⟩
      have hnsent := issue_apple_nsent X os _ req _ s hs
      rcases hret' with hz | hfail
      · -- connectx returned 0: nsent is returned
        rw [classify_apple_nonneg X _ _ _ (by rw [issue_apple_n X os _ req _ s hs, hz]),
          hnsent]
        cases hns : os.connectx.nsent with
        | none => exact absurd hz (by rw [(hunset hns).1]; decide)
        | some k => exact hsome k hns
      · -- connectx returned -1
        refine classify_failed_within X .apple _ _ req.len _ (by decide)
          (issue_neg_of_fails X .apple os _ w req _ s hs
            (prologue_sendtoCount X os w req) hfail) hlen0 hXh ?_ hnoexc
        intro _ herr
        rw [hnsent]
        rcases issue_apple_errno X os _ req _ s hs with h1 | h1 | h1
        · rw [hfail] at h1
          simp only [show ((-1 : Int) < 0) = True from by simp, if_true] at h1
          cases hns : os.connectx.nsent with
          | none => exact absurd (by rw [← h1, herr]) (hunset hns).2
          | some k => exact hsome k hns
        · exact absurd (by rw [h1, herr]) hpf
        · exact absurd (by rw [h1, herr]) hff
    · rw [connectx0_addr_fails X .apple os w req hrc, Option.some.injEq] at hret
      subst hret
      exact absurd (by simpa using hnoexc) (hXa _ _ _ _ hrc)
  · -- Windows
    simp only [attempt, Option.some.injEq] at hret
    subst hret
    simp only [Java_sun_nio_ch_ConnectxImpl_startConnect0] at hnoexc ⊢
    split at hnoexc
    · rename_i hrc
      exact absurd hnoexc (by simpa using hXa _ _ _ _ hrc)
    · rename_i hrc
      rw [if_neg hrc]
      simp only [MayReport] at hos
      obtain ⟨hbs, hgor⟩ := hos
      simp only [ConnectEx, ZeroMemory, GetOverlappedResult] at hnoexc ⊢
      cases hok : os.ConnectEx.ok with
      | true =>
        simp only [hok, Bool.not_true, Bool.false_eq_true, if_false]
        cases hb : os.ConnectEx.bytesSent with
        | none =>
          simp only [Option.getD_none]
          exact ⟨by decide, by simpa [toInt32] using hlen0⟩
        | some k =>
          rw [hb] at hbs
          obtain ⟨hk0, hk1⟩ := hbs
          simp only [Option.getD_some, toInt32_of_range k hk0 (lt_of_le_of_lt hk1 hlen)]
          exact ⟨hk0, hk1⟩
      | false =>
        simp only [hok, Bool.not_false, if_true, Bool.false_eq_true, if_false] at hnoexc ⊢
        split at hnoexc
        · rename_i hpend
          rw [if_pos hpend]
          cases hg : os.GetOverlappedResult.ok with
          | true =>
            obtain ⟨hx0, hx1⟩ := hgor hg
            simp only [if_true, toInt32_of_range _ hx0 (lt_of_le_of_lt hx1 hlen)]
            exact ⟨hx0, hx1⟩
          | false =>
            simp [hg, JNU_ThrowIOExceptionWithLastError] at hnoexc
        · simp [JNU_ThrowIOExceptionWithLastError] at hnoexc



/-- Witness for C2: on Apple `connectx` is left in progress after storing 5 of
16 bytes (5 is returned); on Windows an empty payload is connected at once
(0 is returned). -/
theorem returned_count_within_len_witness :
    (∃ r, attempt refExternals .B (onDarwin (failOS 36 5)) freshWorld (request 16) = some r ∧
      0 ≤ r.1 ∧ r.1 ≤ 16) ∧
    (∃ r, attempt refExternals .C (successOS 0) freshWorld (request 0) = some r ∧
      0 ≤ r.1 ∧ r.1 ≤ 0) :=
  ⟨⟨(attempt refExternals .B (onDarwin (failOS 36 5)) freshWorld (request 16)).get (by decide),
     (Option.some_get _).symm,
     returned_count_within_len refExternals .B (onDarwin (failOS 36 5)) freshWorld (request 16) _
       refExternals_failuresRaise (by decide) (by decide) (by decide)
       (Option.some_get _).symm (by decide)⟩,
   ⟨(attempt refExternals .C (successOS 0) freshWorld (request 0)).get (by decide),
     (Option.some_get _).symm,
     returned_count_within_len refExternals .C (successOS 0) freshWorld (request 0) _
       refExternals_failuresRaise (by decide) (by decide) (by decide)
       (Option.some_get _).symm (by decide)⟩⟩

/-- C3 (failing input). `len = 4096` and the connect call fails with
`EMSGSIZE`, but the write of the debug output fails for lack of space and
stores 28 in `errno` before the classification reads it: on Apple (first
call, `connectx` reports 40, the flush fails) and on Linux (a later call,
`sendto` reports 90, the line fills the stream buffer and the write of the
block fails) the caller gets the result of `handleSocketError` applied to 28
instead of the `IOException` "TFO data too large". -/
theorem debug_print_hides_message_too_large :
    (onDarwin (diskFull (failOS 40 0))).connectx.ret = -1 ∧
    (onDarwin (diskFull (failOS 40 0))).connectx.errno = UnixTarget.EMSGSIZE .apple ∧
    (attempt refExternals .B (onDarwin (diskFull (failOS 40 0))) freshWorld
      (request 4096)).map outcome = some (-5, some (Throwable.Errno 28)) ∧
    (diskFull (failOS 90 0)).sendto 0 = { ret := -1, errno := UnixTarget.EMSGSIZE .linux } ∧
    (attempt refExternals .A (diskFull (failOS 90 0)) busyWorld (request 4096)).map outcome =
      some (-5, some (Throwable.Errno 28)) := by
  refine ⟨rfl, rfl, by decide, rfl, ?_⟩
  have herr : NetMd.errnoRead refExternals .linux (diskFull (failOS 90 0)) busyWorld
      (request 4096) = some 28 :=
    errnoRead_linux_failed_write refExternals (diskFull (failOS 90 0)) busyWorld (request 4096)
      { path := "/tmp/foo.txt", mode := "a", size := 4096, buf := earlierLines } 28 4080 26
      rfl earlierLines_length (by decide) (by decide) (by decide) rfl
  exact other_error_handled refExternals .linux (diskFull (failOS 90 0)) busyWorld
    (request 4096) 28 (by decide) (by decide) herr (by decide) (by decide)

/-- C4 (failing input). On Linux, on a call whose debug line fills the stream
buffer, `sendto` fails with `EINPROGRESS` (115) but the write of the filled
block fails for lack of space and stores 28 in `errno` before the
classification reads it: the caller gets the result of `handleSocketError`
applied to 28, an exception, instead of the return value 0. -/
theorem debug_print_hides_in_progress :
    (diskFull (failOS 115 0)).sendto 0 =
      { ret := -1, errno := UnixTarget.EINPROGRESS .linux } ∧
    (attempt refExternals .A (diskFull (failOS 115 0)) busyWorld (request 4096)).map outcome =
      some (-5, some (Throwable.Errno 28)) := by
  refine ⟨rfl, ?_⟩
  have herr : NetMd.errnoRead refExternals .linux (diskFull (failOS 115 0)) busyWorld
      (request 4096) = some 28 :=
    errnoRead_linux_failed_write refExternals (diskFull (failOS 115 0)) busyWorld (request 4096)
      { path := "/tmp/foo.txt", mode := "a", size := 4096, buf := earlierLines } 28 4080 35
      rfl earlierLines_length (by decide) (by decide) (by decide) rfl
  exact other_error_handled refExternals .linux (diskFull (failOS 115 0)) busyWorld
    (request 4096) 28 (by decide) (by decide) herr (by decide) (by decide)

/-- C5. Under strategy C, when `ConnectEx` returns `FALSE` with last error
`ERROR_IO_PENDING`, the function returns and the calls issued are that
`ConnectEx` and exactly one `GetOverlappedResult` on the caller's completion
token with the caller's `isBlocking` flag as wait flag; if the wait succeeds
with a transferred count `x` (a `jint`) the function returns `x` with no
exception, and if the wait fails it raises an `IOException` and returns
`IOS_THROWN`. -/
theorem pending_waits_once (X : Externals) (os : OS) (w : World) (req : Request)
    (haddr : (X.NET_InetAddressToSockaddr w.env req.iao req.port req.preferIPv6).rc = 0)
    (hfail : os.ConnectEx.ok = false)
    (hpend : os.ConnectEx.lastError = ERROR_IO_PENDING) :
    ∃ r, attempt X .C os w req = some r ∧
    r.2.calls =
      w.calls ++
        [Call.ConnectEx (X.fdval w.env req.fdo)
           (X.NET_InetAddressToSockaddr w.env req.iao req.port req.preferIPv6).sa
           (X.NET_InetAddressToSockaddr w.env req.iao req.port req.preferIPv6).sa_len
           req.bufAddress (toDWORD req.len) req.ol OVERLAPPED.zero,
         Call.GetOverlappedResult (X.fdval w.env req.fdo) req.ol os.ConnectEx.token
           req.isBlocking] ∧
    (∀ x, os.GetOverlappedResult.ok = true → os.GetOverlappedResult.transferred = x →
      0 ≤ x → x < 2147483648 →
      r.1 = x ∧
      r.2.env = (X.NET_InetAddressToSockaddr w.env req.iao req.port req.preferIPv6).env) ∧
    (os.GetOverlappedResult.ok = false →
      r.1 = X.IOS_THROWN ∧
      r.2.env.pending =
        some (Throwable.IOExceptionWithLastError os.GetOverlappedResult.lastError
          "ConnectEx failed")) := by
  have h997 : toInt32 ERROR_IO_PENDING = ERROR_IO_PENDING := by decide
  refine ⟨Java_sun_nio_ch_ConnectxImpl_startConnect0 X os w req, rfl, ?_, ?_, ?_⟩
  · cases hg : os.GetOverlappedResult.ok <;>
      simp [Java_sun_nio_ch_ConnectxImpl_startConnect0, haddr, ConnectEx, ZeroMemory,
        GetOverlappedResult, hfail, hpend, h997, hg]
  · intro x hg hx hx0 hx1
    simp [Java_sun_nio_ch_ConnectxImpl_startConnect0, haddr, ConnectEx, ZeroMemory,
      GetOverlappedResult, hfail, hpend, h997, hg, hx, toInt32_of_range x hx0 hx1]
  · intro hg
    simp [Java_sun_nio_ch_ConnectxImpl_startConnect0, haddr, ConnectEx, ZeroMemory,
      GetOverlappedResult, hfail, hpend, h997, hg, JNU_ThrowIOExceptionWithLastError]

/-- Witness for C5: pending, then the wait succeeds with 10 bytes; 10 is
returned after one blocking wait. -/
theorem pending_waits_once_witness :
    ∃ r, attempt refExternals .C (pendingOS 10) freshWorld (request 16) = some r ∧
      r.1 = 10 ∧
      r.2.calls =
        [Call.ConnectEx 7 [2, 1, 187] 16 8192 16 4096 OVERLAPPED.zero,
         Call.GetOverlappedResult 7 4096 { OVERLAPPED.zero with Internal := 259 } true] :=
  (pending_waits_once refExternals (pendingOS 10) freshWorld (request 16)
      (by decide) rfl rfl).imp
    (fun _ h => ⟨h.1, (h.2.2.1 10 rfl rfl (by decide) (by decide)).1, h.2.1⟩)

/-- C6 (failing input). On Apple (first call) `connectx` is refused with code
61 and the flush of the debug stream then fails and stores 28 in `errno`; on
Linux (a later call, whose debug line fills the stream buffer) `sendto` is
refused with code 111 and the write of the filled block fails and stores 28.
In both cases the caller gets the result of `handleSocketError` applied to
28, not to the code the connect call reported. -/
theorem errno_overwritten_by_debug_print :
    (onDarwin (diskFull (failOS 61 0))).connectx.errno = 61 ∧
    (attempt refExternals .B (onDarwin (diskFull (failOS 61 0))) freshWorld
        (request 16)).map outcome =
      some ((refExternals.handleSocketError freshWorld.env 28).1,
            (refExternals.handleSocketError freshWorld.env 28).2.pending) ∧
    (attempt refExternals .B (onDarwin (diskFull (failOS 61 0))) freshWorld
        (request 16)).map outcome ≠
      some ((refExternals.handleSocketError freshWorld.env 61).1,
            (refExternals.handleSocketError freshWorld.env 61).2.pending) ∧
    ((diskFull (failOS 111 0)).sendto 0).errno = 111 ∧
    (attempt refExternals .A (diskFull (failOS 111 0)) busyWorld (request 16)).map outcome =
      some ((refExternals.handleSocketError busyWorld.env 28).1,
            (refExternals.handleSocketError busyWorld.env 28).2.pending) ∧
    (attempt refExternals .A (diskFull (failOS 111 0)) busyWorld (request 16)).map outcome ≠
      some ((refExternals.handleSocketError busyWorld.env 111).1,
            (refExternals.handleSocketError busyWorld.env 111).2.pending) := by
  have herr : NetMd.errnoRead refExternals .linux (diskFull (failOS 111 0)) busyWorld
      (request 16) = some 28 :=
    errnoRead_linux_failed_write refExternals (diskFull (failOS 111 0)) busyWorld (request 16)
      { path := "/tmp/foo.txt", mode := "a", size := 4096, buf := earlierLines } 28 4080 28
      rfl earlierLines_length (by decide) (by decide) (by decide) rfl
  have hlinux := other_error_handled refExternals .linux (diskFull (failOS 111 0)) busyWorld
    (request 16) 28 (by decide) (by decide) herr (by decide) (by decide)
  refine ⟨rfl, by decide, by decide, rfl, hlinux, ?_⟩
  rw [show attempt refExternals .A (diskFull (failOS 111 0)) busyWorld (request 16) =
    Java_sun_nio_ch_NetMd_connectx0 refExternals .linux (diskFull (failOS 111 0)) busyWorld
      (request 16) from rfl, hlinux]
  decide

/-- C7 (counterexample). With a first `sendto` interrupted (`EINTR`) and a
second that would send 16 bytes, the caller gets the `EINTR` failure, whereas
for the second response alone it gets 16: the call is not retried. -/
theorem eintr_surfaces_to_caller :
    (attempt refExternals .A interruptedOS freshWorld (request 16)).map outcome ≠
      (attempt refExternals .A (successOS 16) freshWorld (request 16)).map outcome ∧
    (attempt refExternals .A interruptedOS freshWorld (request 16)).map outcome =
      some (-5, some (Throwable.Errno EINTR)) ∧
    (attempt refExternals .A (successOS 16) freshWorld (request 16)).map outcome =
      some (16, none) ∧
    interruptedOS.sendto 1 = (successOS 16).sendto 0 := by
  refine ⟨?_, ?_, ?_, rfl⟩ <;> decide

/-- C7 (amended). Under strategy A the `sendto` call is issued exactly once
and never retried: when it fails and the error code read by the
classification is `EINTR`, the caller observes the result of
`handleSocketError` applied to `EINTR`. -/
theorem interrupted_not_retried (X : Externals) (os : OS) (w : World) (req : Request)
    (haddr : (X.NET_InetAddressToSockaddr w.env req.iao req.port req.preferIPv6).rc = 0)
    (hfail : NetMd.CallFails .linux os w)
    (herr : NetMd.errnoRead X .linux os w req = some EINTR) :
    ∃ r, attempt X .A os w req = some r ∧
    sendtoCount r.2.calls = sendtoCount w.calls + 1 ∧
    r.1 =
      (X.handleSocketError
        (X.NET_InetAddressToSockaddr w.env req.iao req.port req.preferIPv6).env EINTR).1 ∧
    r.2.env =
      (X.handleSocketError
        (X.NET_InetAddressToSockaddr w.env req.iao req.port req.preferIPv6).env EINTR).2 := by
  obtain ⟨s, hs, he⟩ := errnoRead_some X .linux os w req _ herr
  refine ⟨NetMd.classify X .linux s.1 s.2.1 s.2.2, ?_, ?_, ?_⟩
  · simp only [attempt]
    rw [connectx0_eq_classify X .linux os w req haddr, hs, Option.map_some']
  · rw [classify_calls, issue_linux_sendtoCount X os _ req _ s hs, prologue_sendtoCount]
  · have h1 : s.2.2.errno ≠ UnixTarget.EMSGSIZE .linux := by rw [he]; decide
    have h2 : s.2.2.errno ≠ UnixTarget.EINPROGRESS .linux := by rw [he]; decide
    rw [classify_other_errno X .linux _ _ _ (by decide)
      (issue_neg_of_fails X .linux os _ w req _ s hs (prologue_sendtoCount X os w req) hfail)
      h1 h2, he, issue_env X .linux os _ req _ s hs, prologue_env]
    exact ⟨rfl, rfl⟩

/-- Witness for C7 (amended): one interrupted `sendto`, one call issued. -/
theorem interrupted_not_retried_witness :
    ∃ r, attempt refExternals .A interruptedOS freshWorld (request 16) = some r ∧
      sendtoCount r.2.calls = 1 ∧ r.1 = -5 :=
  (interrupted_not_retried refExternals interruptedOS freshWorld (request 16)
      (by decide) (by decide) (by decide)).imp
    (fun _ h => ⟨h.1, h.2.1, h.2.2.1⟩)

/-- C8 (failing input). A first call that sends 16 bytes changes the side
channel: on Linux the global stream goes from `NULL` to an open stream on
`/tmp/foo.txt` holding one printed line; on Apple the line is also flushed
into `/tmp/foo.txt`. -/
theorem debug_print_changes_side_channel :
    freshWorld.logState = (none, []) ∧
    (attempt refExternals .A (successOS 16) freshWorld (request 16)).map
        (fun r => r.2.logState) =
      some (some { path := "/tmp/foo.txt", mode := "a", size := 4096,
                   buf := "XXX: 16 Success \n".data }, []) ∧
    (attempt refExternals .B (onDarwin (successOS 16)) freshWorld (request 16)).map
        (fun r => r.2.logState) =
      some (some { path := "/tmp/foo.txt", mode := "a", size := 4096, buf := [] },
            "XXX: 0 Undefined error: 0 16\n".data) ∧
    (attempt refExternals .A (successOS 16) freshWorld (request 16)).map
        (fun r => r.2.logState) ≠ some freshWorld.logState := by
  refine ⟨rfl, ?_, ?_, ?_⟩ <;> decide

/-- C10. Under strategy C, on every call and for every prior content of the
caller's completion token, the only token `ConnectEx` is issued on is the
all-zero one: the call adds exactly the zeroed token to the tokens seen by
`ConnectEx` when address construction succeeds, and none otherwise. -/
theorem token_zeroed_before_connect (X : Externals) (os : OS) (w : World)
    (req : Request) :
    connectExTokens (Java_sun_nio_ch_ConnectxImpl_startConnect0 X os w req).2.calls =
      connectExTokens w.calls ++
        (if (X.NET_InetAddressToSockaddr w.env req.iao req.port req.preferIPv6).rc = 0
         then [OVERLAPPED.zero] else []) := by
  by_cases hrc : (X.NET_InetAddressToSockaddr w.env req.iao req.port req.preferIPv6).rc = 0
  · cases hok : os.ConnectEx.ok
    · by_cases hp : toInt32 os.ConnectEx.lastError = ERROR_IO_PENDING
      · cases hg : os.GetOverlappedResult.ok <;>
          simp [Java_sun_nio_ch_ConnectxImpl_startConnect0, hrc, ConnectEx, ZeroMemory,
            GetOverlappedResult, hok, hp, hg, connectExTokens_append, connectExTokens]
      · simp [Java_sun_nio_ch_ConnectxImpl_startConnect0, hrc, ConnectEx, ZeroMemory,
          hok, hp, connectExTokens_append, connectExTokens]
    · simp [Java_sun_nio_ch_ConnectxImpl_startConnect0, hrc, ConnectEx, ZeroMemory,
        hok, connectExTokens_append, connectExTokens]
  · simp [Java_sun_nio_ch_ConnectxImpl_startConnect0, hrc]

end FastOpen
